import Mathlib

/-
A verification model of `pulser/parametrized/paramobj.py`.

The Python module implements a deferred-call graph: a `ParamObj` holds a
callable `cls` together with positional and keyword arguments, aggregates the
symbolic variables reachable through them, and evaluates lazily through a
memoized `build()` that compares a snapshot of variable version counters.

The embedding below is executable.  Python objects are modelled by the
inductive `PyObj`: a concrete (non-Parametrized) value, a `Variable` leaf, or a
`ParamObj` node carrying its construction data and its mutable memoization
fields (`_instance`, `_vars_state`).  `build` threads the node state
explicitly (it returns the updated node) and is given a fuel argument so that
it is structurally recursive; fuel exhaustion yields a distinguished error
that the real program can never produce, and every theorem quantifies over or
instantiates sufficient fuel.  `Variable` and the `Parametrized` capability
live outside the packaged source file; the parts of them the core reads
(a version counter, a built value, a one-variable `variables` mapping) are
modelled from the specification and marked as such.
-/

/-- The closed set of reversible binary operators of `reversible_ops`. -/
inductive BOp where
  | add | sub | mul | truediv | floordiv | pow | mod
deriving DecidableEq

/-- The unary operators exposed by `OpSupport` (`__neg__`, `__abs__`). -/
inductive UOp where
  | neg | abs
deriving DecidableEq

/-- Concrete callables that can sit in target position: the functions of the
`operator` module, the builtin `getattr`, an opaque class (whose attribute
surface is listed explicitly and whose instantiation records its arguments),
and a stub callable that always raises. -/
inductive Fn where
  | binop (op : BOp)
  | unop (op : UOp)
  | getattrFn
  | ctor (name mod : String) (attrs : List String)
  | raiser (msg : String)
deriving DecidableEq

/-- The universe of concrete Python values the model manipulates.  `none`
models Python `None` (the initial `_instance`), `fnv` a callable value, and
`obj tag fields` an object with an attribute mapping. -/
inductive PVal where
  | none
  | int (n : Int)
  | str (s : String)
  | bool (b : Bool)
  | fnv (f : Fn)
  | obj (tag : String) (fields : List (String × PVal))

/-- Exceptions: `outOfFuel` is the embedding artifact, the others model
Python exception classes with their message. -/
inductive PyErr where
  | outOfFuel
  | typeError (msg : String)
  | attributeError (msg : String)
  | zeroDivisionError (msg : String)
  | raised (msg : String)

/-- Modelled from the spec: the state of an external `Variable` as the core
reads it - a current concrete value and a version counter (`_count`)
incremented on every value mutation. -/
structure VarSt where
  val : PVal
  count : Nat

/-- The external variable store: each variable identity (its name) is mapped
to its current state. -/
abbrev Store := String → VarSt

/-- A Python object as seen by the core: a concrete (non-Parametrized) value,
a symbolic `Variable` leaf, or a `ParamObj` node.  The `pobj` fields are, in
order: `cls`, `args`, `kwargs`, `_variables` (its key list), `_instance`,
`_vars_state`. -/
inductive PyObj where
  | val (v : PVal)
  | var (x : String)
  | pobj (cls : PyObj) (args : List PyObj) (kwargs : List (String × PyObj))
      (vars : List String) (inst : PVal) (vst : List (String × Nat))

/-- Model of `isinstance(x, Parametrized)`: variables and `ParamObj` nodes are
symbolic-capable, plain values are not. -/
def isPrm : PyObj → Bool
  | .val _ => false
  | .var _ => true
  | .pobj _ _ _ _ _ _ => true

/-- The key list of an object's `variables` mapping.  Modelled from the spec
for the `Variable` leaf: a variable's `variables` mapping is the singleton
holding itself under its own name. -/
def pvars : PyObj → List String
  | .val _ => []
  | .var x => [x]
  | .pobj _ _ _ vars _ _ => vars

/-- Model of `dict.update` on the key lists of mappings keyed by variable identity:
keys already present keep their position, new keys are appended in order. -/
def dunion (a b : List String) : List String :=
  a ++ b.filter (fun k => !a.contains k)

/-- The variable aggregation loop of `ParamObj.__init__`: start from the
variables of `cls` when it is Parametrized, then merge in the variables of
every positional argument and keyword value that is Parametrized. -/
def initVars (cls : PyObj) (args : List PyObj)
    (kwargs : List (String × PyObj)) : List String :=
  (args ++ kwargs.map Prod.snd).foldl
    (fun acc x => if isPrm x then dunion acc (pvars x) else acc)
    (if isPrm cls then pvars cls else [])

/-- Model of `ParamObj.__init__(cls, *args, **kwargs)`: store the call data, aggregate
the variables of `cls` (when Parametrized) and of every positional argument
and keyword value (when Parametrized), initialize `_instance` to `None` and
`_vars_state` to the empty mapping. -/
def mkParamObj (cls : PyObj) (args : List PyObj)
    (kwargs : List (String × PyObj)) : PyObj :=
  .pobj cls args kwargs (initVars cls args kwargs) .none []

/-- Python semantics of the `operator` module functions on the modelled value
universe.  Arithmetic is defined on integers (floor division and modulo use
floor conventions, true division only when exact - a float result lies
outside the value universe); everything else is a `TypeError`. -/
def evalBOp : BOp → PVal → PVal → Except PyErr PVal
  | .add, .int a, .int b => .ok (.int (a + b))
  | .add, .str a, .str b => .ok (.str (a ++ b))
  | .sub, .int a, .int b => .ok (.int (a - b))
  | .mul, .int a, .int b => .ok (.int (a * b))
  | .truediv, .int a, .int b =>
      if b = 0 then .error (.zeroDivisionError "division by zero")
      else if a % b = 0 then .ok (.int (Int.fdiv a b))
      else .error (.typeError "model: non-integral true division")
  | .floordiv, .int a, .int b =>
      if b = 0 then .error (.zeroDivisionError "integer division or modulo by zero")
      else .ok (.int (Int.fdiv a b))
  | .pow, .int a, .int b =>
      if b < 0 then .error (.typeError "model: negative integer power")
      else .ok (.int (a ^ b.toNat))
  | .mod, .int a, .int b =>
      if b = 0 then .error (.zeroDivisionError "integer division or modulo by zero")
      else .ok (.int (Int.fmod a b))
  | _, _, _ => .error (.typeError "unsupported operand type")

/-- Python semantics of `operator.neg` and `operator.abs` on the model. -/
def evalUOp : UOp → PVal → Except PyErr PVal
  | .neg, .int a => .ok (.int (-a))
  | .abs, .int a => .ok (.int (|a|))
  | _, _ => .error (.typeError "bad operand type")

/-- Runtime `getattr` on a built value: objects expose their field mapping,
every other value has no retrievable attribute in the model. -/
def pgetattr : PVal → String → Except PyErr PVal
  | .obj _ fields, n =>
      match fields.lookup n with
      | some v => .ok v
      | Option.none => .error (.attributeError ("object has no attribute " ++ n))
  | _, n => .error (.attributeError ("object has no attribute " ++ n))

/-- Invoking a concrete callable on built argument values.  A `ctor` returns
an opaque object recording exactly the arguments it was constructed with;
`raiser` models a callable that raises. -/
def applyFn (f : Fn) (args : List PVal) (kwargs : List (String × PVal)) :
    Except PyErr PVal :=
  match f with
  | .binop op =>
      match args, kwargs with
      | [a, b], [] => evalBOp op a b
      | _, _ => .error (.typeError "operator arity")
  | .unop op =>
      match args, kwargs with
      | [a], [] => evalUOp op a
      | _, _ => .error (.typeError "operator arity")
  | .getattrFn =>
      match args, kwargs with
      | [o, .str n], [] => pgetattr o n
      | _, _ => .error (.typeError "getattr arity")
  | .ctor name _ _ =>
      .ok (.obj name ((args.enum.map (fun p => (toString p.1, p.2))) ++ kwargs))
  | .raiser msg => .error (.raised msg)

/-- Model of `obj(*args_, **kwargs_)` where `obj` is a value: only callable values can
be invoked; the returned list records the invocation of the wrapped
callable. -/
def applyVal (v : PVal) (args : List PVal) (kwargs : List (String × PVal)) :
    Except PyErr PVal × List Fn :=
  match v with
  | .fnv f => (applyFn f args kwargs, [f])
  | _ => (.error (.typeError "object is not callable"), [])

/-- The list comprehension over `self.args`: build each element in order with
the given builder, stopping at the first exception (later elements stay
untouched), collecting the built values, the updated elements and the
invocation log. -/
def buildSeq (bf : PyObj → Except PyErr PVal × PyObj × List Fn) :
    List PyObj → Except PyErr (List PVal) × List PyObj × List Fn
  | [] => (.ok [], [], [])
  | a :: rest =>
      match bf a with
      | (.error e, a', log) => (.error e, a' :: rest, log)
      | (.ok v, a', log) =>
          match buildSeq bf rest with
          | (.error e, rest', log2) => (.error e, a' :: rest', log ++ log2)
          | (.ok vs, rest', log2) => (.ok (v :: vs), a' :: rest', log ++ log2)

/-- The dict comprehension over `self.kwargs`: same as `buildSeq` but keyed. -/
def buildKwSeq (bf : PyObj → Except PyErr PVal × PyObj × List Fn) :
    List (String × PyObj) →
    Except PyErr (List (String × PVal)) × List (String × PyObj) × List Fn
  | [] => (.ok [], [], [])
  | (k, a) :: rest =>
      match bf a with
      | (.error e, a', log) => (.error e, (k, a') :: rest, log)
      | (.ok v, a', log) =>
          match buildKwSeq bf rest with
          | (.error e, rest', log2) => (.error e, (k, a') :: rest', log ++ log2)
          | (.ok vs, rest', log2) =>
              (.ok ((k, v) :: vs), (k, a') :: rest', log ++ log2)

/-- The dict comprehension opening `build()`:
`vars_state = (key, var._count) for key, var in self._variables.items()`. -/
def snapshot (st : Store) (vars : List String) : List (String × Nat) :=
  vars.map (fun k => (k, (st k).count))

/-- The cache-miss path of `build()` (everything after the snapshot has been
stored): build the arguments and keyword values with the given builder,
resolve the target (built through the same builder only when it is itself a
`ParamObj` node; a Variable target is used as is and is not callable),
invoke it and cache the result.  `cur` is the snapshot already stored. -/
def rebuild (bf : PyObj → Except PyErr PVal × PyObj × List Fn)
    (cls : PyObj) (args : List PyObj) (kwargs : List (String × PyObj))
    (vars : List String) (inst : PVal) (cur : List (String × Nat)) :
    Except PyErr PVal × PyObj × List Fn :=
  match buildSeq bf args with
  | (.error e, args', log1) =>
      (.error e, .pobj cls args' kwargs vars inst cur, log1)
  | (.ok argVals, args', log1) =>
      match buildKwSeq bf kwargs with
      | (.error e, kwargs', log2) =>
          (.error e, .pobj cls args' kwargs' vars inst cur, log1 ++ log2)
      | (.ok kwVals, kwargs', log2) =>
          match cls with
          | .pobj c2 a2 k2 v2 i2 s2 =>
              match bf (.pobj c2 a2 k2 v2 i2 s2) with
              | (.error e, cls', log3) =>
                  (.error e, .pobj cls' args' kwargs' vars inst cur,
                    log1 ++ log2 ++ log3)
              | (.ok cv, cls', log3) =>
                  match applyVal cv argVals kwVals with
                  | (.ok r, log4) =>
                      (.ok r, .pobj cls' args' kwargs' vars r cur,
                        log1 ++ log2 ++ log3 ++ log4)
                  | (.error e, log4) =>
                      (.error e, .pobj cls' args' kwargs' vars inst cur,
                        log1 ++ log2 ++ log3 ++ log4)
          | .val v =>
              match applyVal v argVals kwVals with
              | (.ok r, log4) =>
                  (.ok r, .pobj (.val v) args' kwargs' vars r cur,
                    log1 ++ log2 ++ log4)
              | (.error e, log4) =>
                  (.error e, .pobj (.val v) args' kwargs' vars inst cur,
                    log1 ++ log2 ++ log4)
          | .var x2 =>
              (.error (.typeError "Variable object is not callable"),
                .pobj (.var x2) args' kwargs' vars inst cur,
                log1 ++ log2)

/-- Model of `build()` of `paramobj.py`, with explicit state and fuel.  On a
`ParamObj` node it computes the current version snapshot, returns the cached
`_instance` when the snapshot equals `_vars_state`, and otherwise first
stores the new snapshot (exactly as the source does, before anything can
raise) and takes the `rebuild` path.  A `Variable` builds to its current
value (modelled from the spec); a concrete value is left untouched.  The
third component logs every invocation of a resolved callable. -/
def build : Nat → Store → PyObj → Except PyErr PVal × PyObj × List Fn
  | 0, _, t => (.error .outOfFuel, t, [])
  | _ + 1, _, .val v => (.ok v, .val v, [])
  | _ + 1, st, .var x => (.ok (st x).val, .var x, [])
  | fuel + 1, st, .pobj cls args kwargs vars inst vst =>
      let cur := snapshot st vars
      if cur = vst then
        (.ok inst, .pobj cls args kwargs vars inst vst, [])
      else
        rebuild (build fuel st) cls args kwargs vars inst cur

/-- Model of `OpSupport._do_op`: the forward form of a binary operator wraps the
corresponding `operator` function with `(self, other)` as positional
arguments. -/
def do_op (op : BOp) (self other : PyObj) : PyObj :=
  mkParamObj (.val (.fnv (.binop op))) [self, other] []

/-- Model of `OpSupport._do_rop`: the reflected form wraps the same operator function
with `(other, self)` order. -/
def do_rop (op : BOp) (self other : PyObj) : PyObj :=
  mkParamObj (.val (.fnv (.binop op))) [other, self] []

/-- Model of `OpSupport.__neg__`. -/
def negP (self : PyObj) : PyObj :=
  mkParamObj (.val (.fnv (.unop .neg))) [self] []

/-- Model of `OpSupport.__abs__`. -/
def absP (self : PyObj) : PyObj :=
  mkParamObj (.val (.fnv (.unop .abs))) [self] []

/-- The `__name__` of the operator module functions (`operator.__add__` is the
same function object as `operator.add`, so its name has no underscores). -/
def opFnName : BOp → String
  | .add => "add"
  | .sub => "sub"
  | .mul => "mul"
  | .truediv => "truediv"
  | .floordiv => "floordiv"
  | .pow => "pow"
  | .mod => "mod"

/-- The `__name__` of a concrete callable. -/
def fnName : Fn → String
  | .binop op => opFnName op
  | .unop .neg => "neg"
  | .unop .abs => "abs"
  | .getattrFn => "getattr"
  | .ctor n _ _ => n
  | .raiser _ => "raiser"

/-- The `__module__` of a concrete callable. -/
def fnMod : Fn → String
  | .binop _ => "_operator"
  | .unop _ => "_operator"
  | .getattrFn => "builtins"
  | .ctor _ m _ => m
  | .raiser _ => "builtins"

/-- The default textual form (`str`) of a concrete value in the model. -/
def pstr : PVal → String
  | .none => "None"
  | .int n => toString n
  | .str s => s
  | .bool true => "True"
  | .bool false => "False"
  | .fnv f => "<function " ++ fnName f ++ ">"
  | .obj tag _ => "<" ++ tag ++ " object>"

/-- Model of `self.cls.__name__` for a non-Parametrized target: only callable values
carry a name, anything else raises `AttributeError` as in Python. -/
def tname : PyObj → Except PyErr String
  | .val (.fnv f) => .ok (fnName f)
  | _ => .error (.attributeError "object has no attribute __name__")

/-- Render every element of `self.args` with the given renderer, propagating
the first exception. -/
def renderSeq (rf : PyObj → Except PyErr String) :
    List PyObj → Except PyErr (List String)
  | [] => .ok []
  | a :: rest =>
      match rf a with
      | .error e => .error e
      | .ok s =>
          match renderSeq rf rest with
          | .error e => .error e
          | .ok ss => .ok (s :: ss)

/-- Render every keyword pair of `self.kwargs` as `key=value`. -/
def renderKwSeq (rf : PyObj → Except PyErr String) :
    List (String × PyObj) → Except PyErr (List String)
  | [] => .ok []
  | (k, a) :: rest =>
      match rf a with
      | .error e => .error e
      | .ok s =>
          match renderKwSeq rf rest with
          | .error e => .error e
          | .ok ss => .ok ((k ++ "=" ++ s) :: ss)

/-- Model of `ParamObj.__str__`, fueled: render the positional arguments, then the
keyword pairs, then the target (recursively when it is Parametrized, else by
its declared `__name__`), and assemble `name(arg1, arg2, key=val, ...)`.  A
`Variable` renders as its name (modelled from the spec); a concrete value by
its default textual form. -/
def renderF : Nat → PyObj → Except PyErr String
  | 0, _ => .error .outOfFuel
  | fuel + 1, t =>
      match t with
      | .val v => .ok (pstr v)
      | .var x => .ok x
      | .pobj cls args kwargs _ _ _ =>
          match renderSeq (renderF fuel) args with
          | .error e => .error e
          | .ok argStrs =>
              match renderKwSeq (renderF fuel) kwargs with
              | .error e => .error e
              | .ok kwStrs =>
                  match (if isPrm cls then renderF fuel cls else tname cls) with
                  | .error e => .error e
                  | .ok nm =>
                      .ok (nm ++ "(" ++
                        String.intercalate ", " (argStrs ++ kwStrs) ++ ")")

/-- The dunder attribute surface every function object exposes (model). -/
def dunderAttrs : List String :=
  ["__call__", "__class__", "__doc__", "__module__", "__name__", "__qualname__"]

/-- The attribute surface of a concrete callable: an opaque class exposes its
declared attributes on top of the dunders. -/
def fnAttrs : Fn → List String
  | .ctor _ _ attrs => dunderAttrs ++ attrs
  | _ => dunderAttrs

/-- The attribute surface of a concrete value (model): objects expose their
fields, every value exposes its class. -/
def pvalAttrs : PVal → List String
  | .fnv f => fnAttrs f
  | .obj _ fields => "__class__" :: fields.map Prod.fst
  | _ => ["__class__"]

/-- Modelled from the spec: the attribute surface of the external `Variable`
entity (its identity, value storage, version counter and the
symbolic-capable capability). -/
def variableAttrs : List String :=
  ["name", "value", "_count", "variables", "build"]

/-- The attributes normal lookup finds on a `ParamObj` instance itself
(its instance fields and methods), before `__getattr__` is consulted. -/
def paramObjAttrs : List String :=
  ["cls", "args", "kwargs", "variables", "_variables", "_instance",
   "_vars_state", "build", "_to_dict"]

/-- Model of `hasattr(target, n)`: a `ParamObj` target answers through its own
attribute surface and, failing that, through its `__getattr__`, which asks
the same question of its own stored target. -/
def phasattr : PyObj → String → Bool
  | .val v, n => (pvalAttrs v).contains n
  | .var _, n => variableAttrs.contains n
  | .pobj cls _ _ _ _ _, n => paramObjAttrs.contains n || phasattr cls n

/-- Model of `ParamObj.__getattr__(name)`: when the stored target exposes the
attribute, return a new node wrapping the builtin `getattr` applied to
`(self, name)`; otherwise raise an `AttributeError` naming the attribute and
the rendering of the node.  The fuel only feeds the rendering inside the
error message.  This models the fallback Python invokes for names that
normal lookup does not find on the node itself. -/
def getattrF (fuel : Nat) (x : PyObj) (n : String) : Except PyErr PyObj :=
  match x with
  | .pobj cls _ _ _ _ _ =>
      if phasattr cls n then
        .ok (mkParamObj (.val (.fnv .getattrFn)) [x, .val (.str n)] [])
      else
        match renderF fuel x with
        | .ok s =>
            .error (.attributeError
              ("No attribute named \x27" ++ n ++ "\x27 in " ++ s ++ "."))
        | .error e => .error e
  | _ => .error (.typeError "model: getattr fallback applies to ParamObj nodes")

/-- Model of `ParamObj.__call__(*args, **kwargs)`: build a new node with `self` as the
target and the given arguments, and emit the usability warning whose message
names the rendering of the new node.  The fuel only feeds that rendering. -/
def callF (fuel : Nat) (p : PyObj) (args : List PyObj)
    (kwargs : List (String × PyObj)) : PyObj × Except PyErr String :=
  let obj := mkParamObj p args kwargs
  (obj,
    match renderF fuel obj with
    | .ok s =>
        .ok ("Calls to methods of parametrized objects are only executed" ++
          " if they serve as arguments of other parametrized objects that" ++
          " are themselves built. If this is not the case, the call to " ++
          s ++ " will not be executed upon sequence building.")
    | .error e => .error e)

/-- Modelled from the spec: the structured description produced by the
external `obj_to_dict` helper, reduced to the fields the core passes into
it - either a name/module record (the `_build=False` form), the description
of a `Variable`, or a node description carrying the constructor description,
the positional arguments in order and the keyword arguments. -/
inductive Descr where
  | named (name mod : String)
  | varRef (name : String)
  | node (clsd : Descr) (args : List PyObj) (kwargs : List (String × PyObj))

/-- Model of `ParamObj._to_dict`, fueled: when the target is Parametrized its own
structured description becomes the constructor field (a `Variable`
description is modelled from the spec); otherwise the target's `__name__`
and `__module__` are recorded.  The positional and keyword arguments are
passed through unchanged. -/
def to_dict : Nat → PyObj → Except PyErr Descr
  | 0, _ => .error .outOfFuel
  | fuel + 1, t =>
      match t with
      | .pobj cls args kwargs _ _ _ =>
          match
            ((match cls with
             | .var x => .ok (Descr.varRef x)
             | .pobj c2 a2 k2 v2 i2 s2 => to_dict fuel (.pobj c2 a2 k2 v2 i2 s2)
             | .val (.fnv f) => .ok (Descr.named (fnName f) (fnMod f))
             | .val _ =>
                 .error (.attributeError "object has no attribute __name__")) :
              Except PyErr Descr) with
          | .error e => .error e
          | .ok clsd => .ok (.node clsd args kwargs)
      | _ => .error (.typeError "model: _to_dict applies to ParamObj nodes")

/-- Well-formed nodes, for the rendering claim: the stored target of every
node is either symbolic-capable or a callable value carrying a name, and the
condition holds recursively through arguments and keyword values. -/
def hasName : PyObj → Prop
  | .val (.fnv _) => True
  | .val _ => False
  | _ => True

inductive WF : PyObj → Prop where
  | val : ∀ v, WF (.val v)
  | var : ∀ x, WF (.var x)
  | pobj : ∀ cls args kwargs vars inst vst,
      WF cls → hasName cls →
      (∀ a ∈ args, WF a) → (∀ p ∈ kwargs, WF p.2) →
      WF (.pobj cls args kwargs vars inst vst)

-- Scratch sanity checks (reduction of the fueled interpreter).
def stEmpty : Store := fun _ => ⟨.none, 0⟩

def c1f : Fn := .ctor "Pulse" "pulser.pulse" []

def c1st1 : Store := fun _ => ⟨.int 1, 0⟩

def c1st2 : Store := fun _ => ⟨.int 5, 1⟩

def c1v1 : PVal := .obj "Pulse" [("0", .int 1)]

def c1n1 : PyObj := .pobj (.val (.fnv c1f)) [.var "x"] [] ["x"] c1v1 [("x", 0)]

def c1v2 : PVal := .obj "Pulse" [("0", .int 5)]

def c1n2 : PyObj := .pobj (.val (.fnv c1f)) [.var "x"] [] ["x"] c1v2 [("x", 1)]

def c2f : Fn := .ctor "Pulse" "pulser.pulse" []

def c2node : PyObj := mkParamObj (.val (.fnv c2f)) [.val (.int 1)] []

def c3rf : Fn := .raiser "boom"

def c3st : Store := fun _ => ⟨.int 1, 0⟩

def c3n0 : PyObj := mkParamObj (.val (.fnv c3rf)) [.var "x"] []

def c3n1 : PyObj :=
  .pobj (.val (.fnv c3rf)) [.var "x"] [] ["x"] PVal.none [("x", 0)]

def c5st : Store := fun _ => ⟨.int 2, 0⟩

def c5x : PyObj := mkParamObj (.val (.fnv (.ctor "Wave" "pulser.waveforms" []))) [] []

def c6ctor : Fn := .ctor "Pulse" "pulser.pulse" ["draw"]

def c6st : Store := fun _ => ⟨.int 4, 2⟩

def c6x : PyObj :=
  .pobj (.val (.fnv c6ctor)) [.var "a"] [("draw", .val (.int 7))]
    ["a"] PVal.none []

def c6vx : PVal := .obj "Pulse" [("0", .int 4), ("draw", .int 7)]

def c6x0 : PyObj :=
  mkParamObj (.val (.fnv (.ctor "Wave" "pulser.waveforms" ["draw"]))) [] []

def c6p : PyObj :=
  .pobj (.val (.fnv .getattrFn)) [c6x0, .val (.str "draw")] [] [] PVal.none []

def c7p : PyObj := .pobj (.val (.fnv (.ctor "Seq" "pulser.sequence" []))) [] [] [] PVal.none []

def c8f : Fn := .ctor "Pulse" "pulser.pulse" []

def c9t : PyObj :=
  .pobj (.val (.fnv (.binop .add))) [.var "x", .val (.int 3)]
    [("amp", .var "y")] ["x", "y"] PVal.none []

def c10x : PyObj :=
  .pobj (.val (.fnv (.ctor "P" "pulser.pulse" ["draw"]))) [.var "v"]
    [("draw", .val (.obj "Bound" [("fmt", .int 1)]))] ["v"] PVal.none []

def c10a : PyObj :=
  .pobj (.val (.fnv .getattrFn)) [c10x, .val (.str "draw")] [] ["v"]
    PVal.none []

def c10st : Store := fun _ => ⟨.int 0, 0⟩

/-- One-step unfolding of `build` on a node, kept as an explicit equation so
that proofs can rewrite the outer call without disturbing the partially
applied recursive builder inside. -/
theorem build_succ_pobj (fuel : Nat) (st : Store) (cls : PyObj)
    (args : List PyObj) (kwargs : List (String × PyObj))
    (vars : List String) (inst : PVal) (vst : List (String × Nat)) :
    build (fuel + 1) st (.pobj cls args kwargs vars inst vst) =
      if snapshot st vars = vst then
        (.ok inst, .pobj cls args kwargs vars inst vst, [])
      else
        rebuild (build fuel st) cls args kwargs vars inst (snapshot st vars) :=
  rfl

theorem snapshot_congr {st1 st2 : Store} {vars : List String}
    (h : ∀ x ∈ vars, (st2 x).count = (st1 x).count) :
    snapshot st2 vars = snapshot st1 vars :=
  List.map_congr_left (fun x hx => by rw [h x hx])

theorem snapshot_ne {st1 st2 : Store} {vars : List String} {x : String}
    (hx : x ∈ vars) (hne : (st2 x).count ≠ (st1 x).count) :
    snapshot st2 vars ≠ snapshot st1 vars := by
  induction vars with
  | nil => exact absurd hx (List.not_mem_nil x)
  | cons hd tl ih =>
    intro h
    simp only [snapshot, List.map_cons, List.cons.injEq, Prod.mk.injEq] at h
    rcases List.mem_cons.mp hx with rfl | hmem
    · exact hne h.1.2
    · exact ih hmem (by simpa [snapshot] using h.2)

/-- The cache fast path: when the current snapshot equals the stored one,
`build` returns the cached instance, leaves the node unchanged and invokes
nothing. -/
theorem build_hit {st : Store} {cls : PyObj} {args kwargs vars inst vst}
    (fuel : Nat) (hs : snapshot st vars = vst) :
    build (fuel + 1) st (.pobj cls args kwargs vars inst vst) =
      (.ok inst, .pobj cls args kwargs vars inst vst, []) := by
  rw [build_succ_pobj, if_pos hs]

/-- Any successful build of a node with a plain-value target leaves the node
with that same target, the returned value cached and the current snapshot
stored. -/
theorem build_ok_val_state {fuel : Nat} {st : Store} {c : PVal}
    {args kwargs vars inst vst} {v : PVal} {N' : PyObj} {log : List Fn}
    (h : build fuel st (.pobj (.val c) args kwargs vars inst vst) =
      (.ok v, N', log)) :
    ∃ args' kwargs',
      N' = .pobj (.val c) args' kwargs' vars v (snapshot st vars) := by
  cases fuel with
  | zero => simp [build] at h
  | succ n =>
    rw [build_succ_pobj] at h
    split at h
    case isTrue hhit =>
      simp only [Prod.mk.injEq, Except.ok.injEq] at h
      obtain ⟨rfl, rfl, rfl⟩ := h
      exact ⟨args, kwargs, by rw [hhit]⟩
    case isFalse hmiss =>
      simp only [rebuild] at h
      split at h
      case h_1 => simp at h
      case h_2 =>
        split at h
        case h_1 => simp at h
        case h_2 =>
          split at h
          case h_1 =>
            simp only [Prod.mk.injEq, Except.ok.injEq] at h
            obtain ⟨rfl, rfl, rfl⟩ := h
            exact ⟨_, _, rfl⟩
          case h_2 => simp at h

/-- On a cache miss, a successful build of a node wrapping a plain callable
ends its invocation log with that callable: the wrapped callable was invoked
(last) during this call. -/
theorem build_miss_ok_fn {fuel : Nat} {st : Store} {f : Fn}
    {args kwargs vars inst vst} {v : PVal} {N' : PyObj} {log : List Fn}
    (hmiss : snapshot st vars ≠ vst)
    (h : build fuel st (.pobj (.val (.fnv f)) args kwargs vars inst vst) =
      (.ok v, N', log)) :
    log.getLast? = some f := by
  cases fuel with
  | zero => simp [build] at h
  | succ n =>
    rw [build_succ_pobj, if_neg hmiss] at h
    simp only [rebuild, applyVal] at h
    split at h
    case h_1 => simp at h
    case h_2 =>
      split at h
      case h_1 => simp at h
      case h_2 =>
        split at h
        case h_1 =>
          rename_i r log4 heq
          obtain ⟨heq1, heq2⟩ := Prod.mk.injEq .. ▸ heq
          subst heq2
          simp only [Prod.mk.injEq, Except.ok.injEq] at h
          obtain ⟨rfl, rfl, rfl⟩ := h
          exact List.getLast?_concat _
        case h_2 => simp at h

/-- Claim C1: for a node wrapping a plain callable that has been built
successfully, (i) if no variable version counter changed, a further build
returns the identical cached object, leaves the node unchanged and invokes
no callable at all; (ii) if some variable version counter was incremented, a
further successful build invokes the wrapped callable again (the invocation
log ends with it) and caches the new result together with the new
snapshot. -/
theorem claim1 {fuel1 : Nat} {st1 st2 : Store} {f : Fn}
    {args : List PyObj} {kwargs : List (String × PyObj)}
    {vars : List String} {inst : PVal} {vst : List (String × Nat)}
    {v : PVal} {N1 : PyObj} {log1 : List Fn}
    (h1 : build fuel1 st1 (.pobj (.val (.fnv f)) args kwargs vars inst vst) =
      (.ok v, N1, log1)) :
    ((∀ x ∈ vars, (st2 x).count = (st1 x).count) →
      ∀ fuel2, build (fuel2 + 1) st2 N1 = (.ok v, N1, [])) ∧
    ((∃ x ∈ vars, (st1 x).count < (st2 x).count) →
      ∀ fuel2 v2 N2 log2, build fuel2 st2 N1 = (.ok v2, N2, log2) →
        log2.getLast? = some f ∧
        ∃ args2 kwargs2,
          N2 = .pobj (.val (.fnv f)) args2 kwargs2 vars v2 (snapshot st2 vars)) := by
  obtain ⟨a1, k1, rfl⟩ := build_ok_val_state h1
  constructor
  · intro hsame fuel2
    exact build_hit fuel2 (snapshot_congr hsame)
  · rintro ⟨x, hx, hlt⟩ fuel2 v2 N2 log2 h2
    have hne : snapshot st2 vars ≠ snapshot st1 vars :=
      snapshot_ne hx (ne_of_gt hlt)
    exact ⟨build_miss_ok_fn hne h2, build_ok_val_state h2⟩

theorem claim1_witness :
    build 1 c1st1 c1n1 = (.ok c1v1, c1n1, []) ∧
    (List.getLast? [c1f] = some c1f ∧
      ∃ a2 k2, c1n2 = .pobj (.val (.fnv c1f)) a2 k2 ["x"] c1v2
        (snapshot c1st2 ["x"])) := by
  have h1 : build 2 c1st1
      (.pobj (.val (.fnv c1f)) [.var "x"] [] ["x"] PVal.none []) =
      (.ok c1v1, c1n1, [c1f]) := rfl
  have h2 : build 2 c1st2 c1n1 = (.ok c1v2, c1n2, [c1f]) := rfl
  refine ⟨?_, ?_⟩
  · exact (@claim1 2 c1st1 c1st1 c1f [.var "x"] [] ["x"] PVal.none []
      c1v1 c1n1 [c1f] h1).1 (fun x _ => rfl) 0
  · exact (@claim1 2 c1st1 c1st2 c1f [.var "x"] [] ["x"] PVal.none []
      c1v1 c1n1 [c1f] h1).2 ⟨"x", by simp, by decide⟩ 2 c1v2 c1n2 [c1f] h2

/-- Claim C2 (failing input): a node whose variables mapping is empty never
invokes its callable - the very first `build()` already finds the current
snapshot (the empty mapping) equal to the initial `_vars_state` and returns
the initial `_instance`, which is `None`; so does every later call.  The
claim instead demands one invocation with the result cached. -/
theorem claim2_bug :
    pvars c2node = [] ∧
    build 1 stEmpty c2node = (.ok PVal.none, c2node, []) ∧
    build 1 stEmpty (build 1 stEmpty c2node).2.1 =
      (.ok PVal.none, c2node, []) :=
  ⟨rfl, rfl, rfl⟩

/-- Claim C3 (failing input): the callable raises on the first build; the
exception propagates, but the node is left with the NEW snapshot
`[(x, 0)]` (the source stores it before invoking), so a second build with
unchanged versions takes the cache fast path and returns the absent cache
(`None`) without retrying the callable - the claim instead demands an
unchanged snapshot and a retry. -/
theorem claim3_bug :
    build 2 c3st c3n0 = (.error (.raised "boom"), c3n1, [c3rf]) ∧
    build 2 c3st c3n1 = (.ok PVal.none, c3n1, []) :=
  ⟨rfl, rfl⟩

theorem mem_dunion {k : String} {a b : List String} :
    k ∈ dunion a b ↔ k ∈ a ∨ k ∈ b := by
  simp [dunion, List.mem_filter]
  tauto

theorem mem_foldl_vars {k : String} (l : List PyObj) (acc : List String) :
    k ∈ l.foldl (fun acc x => if isPrm x then dunion acc (pvars x) else acc) acc ↔
      k ∈ acc ∨ ∃ x ∈ l, isPrm x = true ∧ k ∈ pvars x := by
  induction l generalizing acc with
  | nil => simp
  | cons hd tl ih =>
    simp only [List.foldl_cons]
    by_cases hp : isPrm hd
    · rw [if_pos hp, ih]
      simp [mem_dunion, hp]
      tauto
    · rw [if_neg hp, ih]
      simp [hp]

/-- Membership in the variables mapping computed at construction: exactly the
union over the target and every positional argument and keyword value of the
variables of the symbolic-capable sub-objects. -/
theorem mem_initVars {k : String} {cls : PyObj} {args : List PyObj}
    {kwargs : List (String × PyObj)} :
    k ∈ initVars cls args kwargs ↔
      (isPrm cls = true ∧ k ∈ pvars cls) ∨
      ∃ x ∈ args ++ kwargs.map Prod.snd, isPrm x = true ∧ k ∈ pvars x := by
  unfold initVars
  rw [mem_foldl_vars]
  by_cases hp : isPrm cls <;> simp [hp]

/-- A build never changes the `_variables` key list of the node it is
invoked on. -/
theorem build_pvars (fuel : Nat) (st : Store) (cls : PyObj)
    (args : List PyObj) (kwargs : List (String × PyObj))
    (vars : List String) (inst : PVal) (vst : List (String × Nat)) :
    pvars (build fuel st (.pobj cls args kwargs vars inst vst)).2.1 = vars := by
  cases fuel with
  | zero => rfl
  | succ n =>
    rw [build_succ_pobj]
    simp only [rebuild]
    repeat' split
    all_goals rfl

/-- Claim C4: the variables mapping a `ParamObj` gets at construction holds
exactly the union of the variables of its symbolic-capable target, positional
arguments and keyword values (non-symbolic sub-objects contribute nothing),
and `build` - the only operation that returns an updated node; every other
operation of the model is a pure function of the node - leaves the
`_variables` key list of any node unchanged. -/
theorem claim4 (cls : PyObj) (args : List PyObj)
    (kwargs : List (String × PyObj)) :
    (∀ k, k ∈ pvars (mkParamObj cls args kwargs) ↔
      (isPrm cls = true ∧ k ∈ pvars cls) ∨
      ∃ x ∈ args ++ kwargs.map Prod.snd, isPrm x = true ∧ k ∈ pvars x) ∧
    (∀ fuel st vars inst vst,
      pvars (build fuel st (.pobj cls args kwargs vars inst vst)).2.1 = vars) :=
  ⟨fun _ => mem_initVars, fun fuel st vars inst vst =>
    build_pvars fuel st cls args kwargs vars inst vst⟩

theorem isPrm_of_pvars_ne {a : PyObj} (h : pvars a ≠ []) : isPrm a = true := by
  cases a with
  | val v => exact absurd rfl h
  | var x => rfl
  | pobj c as ks vs i s => rfl

theorem initVars_pair_ne {c a b : PyObj}
    (h : pvars a ≠ [] ∨ pvars b ≠ []) :
    initVars c [a, b] [] ≠ [] := by
  rcases h with h | h
  · obtain ⟨k, hk⟩ := List.exists_mem_of_ne_nil _ h
    exact List.ne_nil_of_mem
      (mem_initVars.mpr (Or.inr ⟨a, by simp, isPrm_of_pvars_ne h, hk⟩))
  · obtain ⟨k, hk⟩ := List.exists_mem_of_ne_nil _ h
    exact List.ne_nil_of_mem
      (mem_initVars.mpr (Or.inr ⟨b, by simp, isPrm_of_pvars_ne h, hk⟩))

theorem snapshot_ne_nil {st : Store} {vars : List String} (h : vars ≠ []) :
    snapshot st vars ≠ [] := by
  simpa [snapshot] using h

/-- Claim C5 (amended): each reversible operator in forward form wraps the
operator function with `(a, b)` as positional arguments, the reflected form
wraps it with `(other, self)` order, negation and absolute value wrap the
single operand; construction stores the operands unevaluated with an absent
cache; and whenever at least one operand has a nonempty variables mapping,
building the resulting node returns exactly the operator function applied to
the built operands. -/
theorem claim5 (op : BOp) (a b : PyObj) (st : Store) :
    (∃ vs, do_op op a b =
      .pobj (.val (.fnv (.binop op))) [a, b] [] vs PVal.none []) ∧
    (∃ vs, do_rop op a b =
      .pobj (.val (.fnv (.binop op))) [b, a] [] vs PVal.none []) ∧
    (∃ vs, negP a = .pobj (.val (.fnv (.unop .neg))) [a] [] vs PVal.none []) ∧
    (∃ vs, absP a = .pobj (.val (.fnv (.unop .abs))) [a] [] vs PVal.none []) ∧
    (∀ fuel va vb a2 b2 la lb,
      pvars a ≠ [] ∨ pvars b ≠ [] →
      build fuel st a = (.ok va, a2, la) →
      build fuel st b = (.ok vb, b2, lb) →
      (build (fuel + 1) st (do_op op a b)).1 = evalBOp op va vb ∧
      (build (fuel + 1) st (do_rop op a b)).1 = evalBOp op vb va) := by
  refine ⟨⟨_, rfl⟩, ⟨_, rfl⟩, ⟨_, rfl⟩, ⟨_, rfl⟩, ?_⟩
  intro fuel va vb a2 b2 la lb hv ha hb
  constructor
  · have hcond : snapshot st (initVars (.val (.fnv (.binop op))) [a, b] []) ≠ [] :=
      snapshot_ne_nil (initVars_pair_ne hv)
    simp only [do_op, mkParamObj]
    rw [build_succ_pobj, if_neg hcond]
    simp only [rebuild, buildSeq, buildKwSeq, ha, hb, applyVal, applyFn]
    cases hE : evalBOp op va vb with
    | ok r => simp [hE]
    | error e => simp [hE]
  · have hcond : snapshot st (initVars (.val (.fnv (.binop op))) [b, a] []) ≠ [] :=
      snapshot_ne_nil (initVars_pair_ne hv.symm)
    simp only [do_rop, mkParamObj]
    rw [build_succ_pobj, if_neg hcond]
    simp only [rebuild, buildSeq, buildKwSeq, ha, hb, applyVal, applyFn]
    cases hE : evalBOp op vb va with
    | ok r => simp [hE]
    | error e => simp [hE]

theorem claim5_witness :
    (build 2 c5st (do_op .add (.var "x") (.val (.int 3)))).1 =
      evalBOp .add (.int 2) (.int 3) ∧
    (build 2 c5st (do_rop .add (.var "x") (.val (.int 3)))).1 =
      evalBOp .add (.int 3) (.int 2) :=
  (claim5 .add (.var "x") (.val (.int 3)) c5st).2.2.2.2 1 (.int 2) (.int 3)
    (.var "x") (.val (.int 3)) [] [] (Or.inl (by decide)) rfl rfl

/-- Claim C5 counterexample: for a symbolic-capable operand whose variables
mapping is empty, building the operator node does NOT equal applying the
operator to the built operands: both the node and the operand build to the
never-initialized cache `None` without invoking anything (the defect of C2),
while `add` applied to the built operand raises a `TypeError`. -/
theorem claim5_cex :
    isPrm c5x = true ∧ pvars c5x = [] ∧
    (build 3 stEmpty (do_op .add c5x (.val (.int 3)))).1 = .ok PVal.none ∧
    (build 3 stEmpty (do_op .add c5x (.val (.int 3)))).2.2 = [] ∧
    (build 3 stEmpty c5x).1 = .ok PVal.none ∧
    evalBOp .add PVal.none (.int 3) =
      .error (.typeError "unsupported operand type") ∧
    (build 3 stEmpty (do_op .add c5x (.val (.int 3)))).1 ≠
      evalBOp .add PVal.none (.int 3) :=
  ⟨rfl, rfl, rfl, rfl, rfl, rfl, fun h => Except.noConfusion h⟩

theorem dunion_nil (b : List String) : dunion [] b = b := by
  simp [dunion]

theorem isPrm_val (v : PVal) : isPrm (.val v) = false := rfl

theorem initVars_getattr {x : PyObj} (hx : isPrm x = true) (n : String) :
    initVars (.val (.fnv .getattrFn)) [x, .val (.str n)] [] = pvars x := by
  simp [initVars, isPrm_val, hx, dunion_nil]

/-- Claim C6 (amended): for a node whose stored target exposes attribute `n`,
the attribute access returns a new node wrapping the builtin `getattr`
applied to `(self, n)`, with the original node embedded unevaluated and an
absent cache; when the node has a nonempty variables mapping, building the
proxy yields exactly `getattr` applied to the built node and `n`; when the
target does not expose `n`, the access raises an `AttributeError` naming the
attribute and the rendering of the node. -/
theorem claim6 (cls : PyObj) (args : List PyObj)
    (kwargs : List (String × PyObj)) (vars : List String) (inst : PVal)
    (vst : List (String × Nat)) (n : String) (fuel : Nat) (st : Store) :
    (phasattr cls n = true →
      getattrF fuel (.pobj cls args kwargs vars inst vst) n =
        .ok (.pobj (.val (.fnv .getattrFn))
          [.pobj cls args kwargs vars inst vst, .val (.str n)] []
          vars PVal.none [])) ∧
    (vars ≠ [] →
      ∀ f2 vx x2 lx,
        build f2 st (.pobj cls args kwargs vars inst vst) = (.ok vx, x2, lx) →
        (build (f2 + 1) st (.pobj (.val (.fnv .getattrFn))
          [.pobj cls args kwargs vars inst vst, .val (.str n)] []
          vars PVal.none [])).1 = pgetattr vx n) ∧
    (phasattr cls n = false →
      ∀ s, renderF fuel (.pobj cls args kwargs vars inst vst) = .ok s →
        getattrF fuel (.pobj cls args kwargs vars inst vst) n =
          .error (.attributeError
            ("No attribute named \x27" ++ n ++ "\x27 in " ++ s ++ "."))) := by
  refine ⟨?_, ?_, ?_⟩
  · intro hhas
    have hiv := @initVars_getattr (PyObj.pobj cls args kwargs vars inst vst) rfl n
    simp only [getattrF, hhas, if_true, mkParamObj, hiv]
    rfl
  · intro hvars f2 vx x2 lx hbx
    cases f2 with
    | zero => simp [build] at hbx
    | succ g =>
      have hcond : snapshot st vars ≠ [] := snapshot_ne_nil hvars
      have h2 : build (g + 1) st (PyObj.val (PVal.str n)) =
          (.ok (.str n), .val (.str n), []) := rfl
      rw [build_succ_pobj, if_neg hcond]
      simp only [rebuild, buildSeq, buildKwSeq, hbx, h2, applyVal, applyFn]
      cases hE : pgetattr vx n with
      | ok r => simp [hE]
      | error e => simp [hE]
  · intro hhas s hr
    simp [getattrF, hhas, hr]

theorem claim6_witness :
    getattrF 3 c6x "draw" =
      .ok (.pobj (.val (.fnv .getattrFn)) [c6x, .val (.str "draw")] []
        ["a"] PVal.none []) ∧
    (build 3 c6st (.pobj (.val (.fnv .getattrFn)) [c6x, .val (.str "draw")] []
      ["a"] PVal.none [])).1 = pgetattr c6vx "draw" ∧
    getattrF 2 c6x "nope" =
      .error (.attributeError
        "No attribute named \x27nope\x27 in Pulse(a, draw=7).") := by
  have h := claim6 (.val (.fnv c6ctor)) [.var "a"] [("draw", .val (.int 7))]
    ["a"] PVal.none [] "draw" 3 c6st
  have h2 := claim6 (.val (.fnv c6ctor)) [.var "a"] [("draw", .val (.int 7))]
    ["a"] PVal.none [] "nope" 2 c6st
  refine ⟨h.1 rfl, ?_, ?_⟩
  · exact h.2.1 (by decide) 2 c6vx
      (.pobj (.val (.fnv c6ctor)) [.var "a"] [("draw", .val (.int 7))]
        ["a"] c6vx [("a", 2)]) [c6ctor] rfl
  · exact h2.2.2 rfl "Pulse(a, draw=7)" rfl

/-- Claim C6 counterexample: when the accessed node has an empty variables
mapping, the attribute access still succeeds (the target exposes the
attribute), but building the proxy node returns the never-initialized cache
`None` instead of `getattr` applied to the built node - which itself builds
to `None` and has no such attribute. -/
theorem claim6_cex :
    pvars c6x0 = [] ∧
    getattrF 2 c6x0 "draw" = .ok c6p ∧
    (build 3 stEmpty c6p).1 = .ok PVal.none ∧
    (build 3 stEmpty c6x0).1 = .ok PVal.none ∧
    pgetattr PVal.none "draw" =
      .error (.attributeError "object has no attribute draw") ∧
    (build 3 stEmpty c6p).1 ≠ pgetattr PVal.none "draw" :=
  ⟨rfl, rfl, rfl, rfl, rfl, fun h => Except.noConfusion h⟩

/-- Claim C7: calling a node returns a new node with the called node as its
target and the given arguments stored unevaluated (absent cache, empty
snapshot, variables aggregated at construction), and the emitted usability
warning names the rendering of the new node. -/
theorem claim7 (p : PyObj) (args : List PyObj)
    (kwargs : List (String × PyObj)) (fuel : Nat) (s : String)
    (hr : renderF fuel (mkParamObj p args kwargs) = .ok s) :
    callF fuel p args kwargs =
      (.pobj p args kwargs (initVars p args kwargs) PVal.none [],
        .ok ("Calls to methods of parametrized objects are only executed" ++
          " if they serve as arguments of other parametrized objects that" ++
          " are themselves built. If this is not the case, the call to " ++
          s ++ " will not be executed upon sequence building.")) := by
  have hr2 : renderF fuel
      (.pobj p args kwargs (initVars p args kwargs) PVal.none []) = .ok s := hr
  simp [callF, mkParamObj, hr2]

theorem claim7_witness :
    callF 3 c7p [.val (.int 1)] [] =
      (.pobj c7p [.val (.int 1)] [] [] PVal.none [],
        .ok ("Calls to methods of parametrized objects are only executed" ++
          " if they serve as arguments of other parametrized objects that" ++
          " are themselves built. If this is not the case, the call to " ++
          "Seq()(1)" ++ " will not be executed upon sequence building.")) :=
  claim7 c7p [.val (.int 1)] [] 3 "Seq()(1)" rfl

/-- Claim C8: the structured description of a node uses the recursively
obtained description of its target as the constructor field when the target
is symbolic-capable (a nested node describes itself, a variable contributes
its own description), and otherwise records the target's name and module;
the positional arguments are passed in order and the keyword arguments are
passed through; and the description is independent of the node's cached
instance and version snapshot (serialization cannot mutate them - it is a
pure function of the remaining fields and never invokes `build`). -/
theorem claim8 (cls : PyObj) (args : List PyObj)
    (kwargs : List (String × PyObj)) (vars : List String)
    (i1 i2 : PVal) (s1 s2 : List (String × Nat)) (fuel : Nat) :
    (∀ f : Fn, cls = .val (.fnv f) →
      to_dict (fuel + 1) (.pobj cls args kwargs vars i1 s1) =
        .ok (.node (.named (fnName f) (fnMod f)) args kwargs)) ∧
    (∀ x : String, cls = .var x →
      to_dict (fuel + 1) (.pobj cls args kwargs vars i1 s1) =
        .ok (.node (.varRef x) args kwargs)) ∧
    (∀ c2 a2 k2 v2 j2 t2, cls = .pobj c2 a2 k2 v2 j2 t2 →
      ∀ d, to_dict fuel cls = .ok d →
        to_dict (fuel + 1) (.pobj cls args kwargs vars i1 s1) =
          .ok (.node d args kwargs)) ∧
    to_dict fuel (.pobj cls args kwargs vars i1 s1) =
      to_dict fuel (.pobj cls args kwargs vars i2 s2) := by
  refine ⟨?_, ?_, ?_, ?_⟩
  · rintro f rfl
    rfl
  · rintro x rfl
    rfl
  · rintro c2 a2 k2 v2 j2 t2 rfl d hd
    simp only [to_dict, hd]
  · cases fuel with
    | zero => rfl
    | succ m => rfl

theorem claim8_witness :
    to_dict 2 (.pobj (.val (.fnv c8f)) [.val (.int 1)] [("key", .val (.int 2))]
        [] (.int 9) [("z", 3)]) =
      .ok (.node (.named "Pulse" "pulser.pulse")
        [.val (.int 1)] [("key", .val (.int 2))]) ∧
    to_dict 2 (.pobj (.var "w") [] [] ["w"] PVal.none []) =
      .ok (.node (.varRef "w") [] []) ∧
    to_dict 2 (.pobj (.pobj (.val (.fnv c8f)) [] [] [] PVal.none []) [] []
        [] PVal.none []) =
      .ok (.node (.node (.named "Pulse" "pulser.pulse") [] []) [] []) ∧
    to_dict 1 (.pobj (.val (.fnv c8f)) [] [] [] (.int 9) [("z", 3)]) =
      to_dict 1 (.pobj (.val (.fnv c8f)) [] [] [] PVal.none []) := by
  refine ⟨?_, ?_, ?_, ?_⟩
  · exact (claim8 (.val (.fnv c8f)) [.val (.int 1)] [("key", .val (.int 2))]
      [] (.int 9) PVal.none [("z", 3)] [] 1).1 c8f rfl
  · exact (claim8 (.var "w") [] [] ["w"] PVal.none PVal.none [] [] 1).2.1 "w" rfl
  · exact (claim8 (.pobj (.val (.fnv c8f)) [] [] [] PVal.none []) [] [] []
      PVal.none PVal.none [] [] 1).2.2.1 (.val (.fnv c8f)) [] [] [] PVal.none []
      rfl (.node (.named "Pulse" "pulser.pulse") [] []) rfl
  · exact (claim8 (.val (.fnv c8f)) [] [] [] (.int 9) PVal.none [("z", 3)] [] 1).2.2.2

theorem renderSeq_ok {rf : PyObj → Except PyErr String} {l : List PyObj}
    (h : ∀ a ∈ l, ∃ s, rf a = .ok s) :
    ∃ ss, renderSeq rf l = .ok ss := by
  induction l with
  | nil => exact ⟨[], rfl⟩
  | cons hd tl ih =>
    obtain ⟨s, hs⟩ := h hd (List.mem_cons_self hd tl)
    obtain ⟨ss, hss⟩ := ih (fun a ha => h a (List.mem_cons_of_mem hd ha))
    exact ⟨s :: ss, by simp [renderSeq, hs, hss]⟩

theorem renderKwSeq_ok {rf : PyObj → Except PyErr String}
    {l : List (String × PyObj)} (h : ∀ p ∈ l, ∃ s, rf p.2 = .ok s) :
    ∃ ss, renderKwSeq rf l = .ok ss := by
  induction l with
  | nil => exact ⟨[], rfl⟩
  | cons hd tl ih =>
    obtain ⟨k, a⟩ := hd
    obtain ⟨s, hs⟩ := h (k, a) (List.mem_cons_self (k, a) tl)
    obtain ⟨ss, hss⟩ := ih (fun p hp => h p (List.mem_cons_of_mem (k, a) hp))
    exact ⟨(k ++ "=" ++ s) :: ss, by simp [renderKwSeq, hs, hss]⟩

/-- One-step unfolding of `__str__` on a node, kept as an explicit equation
so that proofs can rewrite without disturbing the partially applied
recursive renderer. -/
theorem renderF_succ_pobj (fuel : Nat) (cls : PyObj) (args : List PyObj)
    (kwargs : List (String × PyObj)) (vars : List String) (inst : PVal)
    (vst : List (String × Nat)) :
    renderF (fuel + 1) (.pobj cls args kwargs vars inst vst) =
      match renderSeq (renderF fuel) args with
      | .error e => .error e
      | .ok argStrs =>
          match renderKwSeq (renderF fuel) kwargs with
          | .error e => .error e
          | .ok kwStrs =>
              match (if isPrm cls then renderF fuel cls else tname cls) with
              | .error e => .error e
              | .ok nm =>
                  .ok (nm ++ "(" ++
                    String.intercalate ", " (argStrs ++ kwStrs) ++ ")") :=
  rfl

/-- Claim C9: for every well-formed node, (i) the rendering is defined (no
exception) once the fuel covers the size of the node, and (ii) whenever the
sub-renderings are defined, the rendering of a node is exactly
`name(arg1, arg2, key=value, ...)` where the name is the recursively
rendered target when it is symbolic-capable and its declared name otherwise,
each positional argument is rendered in order and each keyword pair as
`key=value`. -/
theorem claim9 {t : PyObj} (hwf : WF t) :
    (∀ fuel, sizeOf t ≤ fuel → ∃ s, renderF fuel t = .ok s) ∧
    (∀ cls args kwargs vars inst vst fuel argStrs kwStrs nm,
      t = .pobj cls args kwargs vars inst vst →
      renderSeq (renderF fuel) args = .ok argStrs →
      renderKwSeq (renderF fuel) kwargs = .ok kwStrs →
      (if isPrm cls then renderF fuel cls else tname cls) = .ok nm →
      renderF (fuel + 1) t =
        .ok (nm ++ "(" ++ String.intercalate ", " (argStrs ++ kwStrs) ++ ")")) := by
  constructor
  · induction hwf with
    | val v =>
      intro fuel hf
      cases fuel with
      | zero => simp at hf
      | succ m => exact ⟨pstr v, rfl⟩
    | var x =>
      intro fuel hf
      cases fuel with
      | zero => simp at hf
      | succ m => exact ⟨x, rfl⟩
    | pobj cls args kwargs vars inst vst hcls hname hargs hkw ihcls ihargs ihkw =>
      intro fuel hf
      cases fuel with
      | zero => simp at hf
      | succ m =>
        have hsz : sizeOf (PyObj.pobj cls args kwargs vars inst vst) =
            1 + sizeOf cls + sizeOf args + sizeOf kwargs + sizeOf vars +
              sizeOf inst + sizeOf vst := by
          simp
        have hclsz : sizeOf cls ≤ m := by omega
        obtain ⟨argStrs, hargsS⟩ := renderSeq_ok (l := args)
          (fun a ha => ihargs a ha m
            (by have := List.sizeOf_lt_of_mem ha; omega))
        obtain ⟨kwStrs, hkwS⟩ := renderKwSeq_ok (l := kwargs)
          (fun p hp => ihkw p hp m
            (by
              have h1 := List.sizeOf_lt_of_mem hp
              have h2 : sizeOf p.2 < sizeOf p := by
                obtain ⟨k, a⟩ := p
                simp
              omega))
        obtain ⟨nm, hnm⟩ : ∃ nm,
            (if isPrm cls then renderF m cls else tname cls) = .ok nm := by
          cases cls with
          | val v =>
            cases v with
            | fnv f => exact ⟨fnName f, rfl⟩
            | none => exact absurd hname (by simp [hasName])
            | int n => exact absurd hname (by simp [hasName])
            | str s => exact absurd hname (by simp [hasName])
            | bool b => exact absurd hname (by simp [hasName])
            | obj tag fields => exact absurd hname (by simp [hasName])
          | var x =>
            obtain ⟨s, hs⟩ := ihcls m hclsz
            exact ⟨s, by simpa [isPrm] using hs⟩
          | pobj c2 a2 k2 v2 i2 s2 =>
            obtain ⟨s, hs⟩ := ihcls m hclsz
            exact ⟨s, by simpa [isPrm] using hs⟩
        refine ⟨nm ++ "(" ++ String.intercalate ", " (argStrs ++ kwStrs) ++ ")", ?_⟩
        rw [renderF_succ_pobj, hargsS, hkwS, hnm]
  · rintro cls args kwargs vars inst vst fuel argStrs kwStrs nm rfl h1 h2 h3
    rw [renderF_succ_pobj, h1, h2, h3]

theorem claim9_witness :
    (∃ s, renderF 4000 c9t = .ok s) ∧
    renderF 3 c9t = .ok "add(x, 3, amp=y)" := by
  have hwf : WF c9t := by
    refine WF.pobj _ _ _ _ _ _ (WF.val _) trivial ?_ ?_
    · intro a ha
      simp only [List.mem_cons, List.not_mem_nil, or_false] at ha
      rcases ha with rfl | rfl
      · exact WF.var "x"
      · exact WF.val _
    · intro p hp
      simp only [List.mem_cons, List.not_mem_nil, or_false] at hp
      subst hp
      exact WF.var "y"
  have h := claim9 hwf
  refine ⟨h.1 4000 (by decide), ?_⟩
  exact h.2 (.val (.fnv (.binop .add))) [.var "x", .val (.int 3)]
    [("amp", .var "y")] ["x", "y"] PVal.none [] 2 ["x", "3"] ["amp=y"] "add"
    rfl rfl rfl rfl

/-- Claim C10: attribute proxying does not chain - a node produced by
attribute access stores the builtin `getattr` as its target, so a further
attribute access on it checks the requested name against the builtin
function's own attribute surface and raises an `AttributeError` for every
other name, even when the value the node builds to does expose that name
(exhibited by the concrete node `c10a`, which builds to an object carrying
the attribute `fmt`). -/
theorem claim10 :
    (∀ args kwargs vars inst vst (m : String) fuel s,
      m ∉ fnAttrs .getattrFn →
      renderF fuel (.pobj (.val (.fnv .getattrFn)) args kwargs vars inst vst) =
        .ok s →
      getattrF fuel (.pobj (.val (.fnv .getattrFn)) args kwargs vars inst vst) m =
        .error (.attributeError
          ("No attribute named \x27" ++ m ++ "\x27 in " ++ s ++ "."))) ∧
    (getattrF 9 c10x "draw" = .ok c10a ∧
     (build 3 c10st c10a).1 = .ok (.obj "Bound" [("fmt", .int 1)]) ∧
     pgetattr (.obj "Bound" [("fmt", .int 1)]) "fmt" = .ok (.int 1) ∧
     ∃ s, getattrF 9 c10a "fmt" = .error (.attributeError s)) := by
  constructor
  · intro args kwargs vars inst vst m fuel s hm hr
    have hc : phasattr (.val (.fnv Fn.getattrFn)) m = false := by
      show (fnAttrs Fn.getattrFn).contains m = false
      rw [show (fnAttrs Fn.getattrFn).contains m =
        (fnAttrs Fn.getattrFn).elem m from rfl, List.elem_eq_mem]
      exact decide_eq_false hm
    simp [getattrF, hc, hr]
  · exact ⟨rfl, rfl, rfl, ⟨_, rfl⟩⟩

theorem claim10_witness :
    getattrF 9 c10a "fmt" =
      .error (.attributeError
        "No attribute named \x27fmt\x27 in getattr(P(v, draw=<Bound object>), draw).") :=
  claim10.1 [c10x, .val (.str "draw")] [] ["v"] PVal.none [] "fmt" 9
    "getattr(P(v, draw=<Bound object>), draw)" (by decide) rfl


theorem claim4_witness :
    pvars (build 2 c1st1
      (.pobj (.val (.fnv c1f)) [.var "x"] [] ["x"] PVal.none [])).2.1 =
      ["x"] :=
  (claim4 (.val (.fnv c1f)) [.var "x"] []).2 2 c1st1 ["x"] PVal.none []
